import Mathlib

/-!
Verification development for the compliance-scraper repository
(`scrap_st.py`, `scraper.py`, `script.py`).

The Python sources are shallowly embedded as executable Lean definitions:

* pure helpers (keyword classification, URL normalization, scope filtering,
  release-number extraction, md5-based record identity) become Lean functions
  over `String` and `List Char`;
* the crawl loop of `VanguardComplianceScraper.crawl` becomes a well-founded
  recursive function over an explicit state (pending queue, visited list,
  page counter, collected results) together with a ghost `fetch_log` recording
  the order of attempted fetches — the log is pure instrumentation and does
  not influence control flow;
* the network is abstracted as an oracle `world : String → Option FetchedPage`
  (`none` models any fetch failure caught by the Python `except` blocks) and,
  for `BaseScraper.fetch_page`, as `http : String → HttpOutcome` exposing the
  HTTP status code so that `raise_for_status` can be modelled;
* Python `str.lower` is modelled with `Char.toLower` (the inputs considered
  are ASCII, where the two agree), `hashlib.md5` is implemented in full over
  `Nat` arithmetic mod 2^32, and `urllib.parse.urljoin` is modelled on the
  reference forms the scraper produces (absolute, protocol-relative and
  path-absolute references without dot-segments);
* `list(set(xs))` has unspecified order in Python; the embedding keeps the
  first occurrence of each element.
-/

namespace ComplianceScrapers

/-! ## Generic string utilities (ASCII semantics of the Python `str` methods) -/

/-- Python `s.lower()` restricted to ASCII: lowercase every character. -/
def lowerStr (s : String) : String :=
  ⟨s.toList.map Char.toLower⟩

/-- Bool test that `p` is an initial segment of `l`. -/
def matchesAt : List Char → List Char → Bool
  | [], _ => true
  | _ :: _, [] => false
  | p :: ps, c :: cs => p == c && matchesAt ps cs

/-- Bool test that `needle` occurs contiguously inside the second list. -/
def containsList (needle : List Char) : List Char → Bool
  | [] => matchesAt needle []
  | c :: cs => matchesAt needle (c :: cs) || containsList needle cs

/-- Python `needle in hay` on strings: contiguous-substring test. -/
def containsStr (hay needle : String) : Bool :=
  containsList needle.toList hay.toList

/-- Python `s.startswith(p)`. -/
def startsStr (s p : String) : Bool :=
  matchesAt p.toList s.toList

/-- Python `s.endswith(p)`. -/
def endsStr (s p : String) : Bool :=
  matchesAt p.toList.reverse s.toList.reverse

/-- Python `k.replace(' ', '-')`. -/
def replaceSpaceDash (k : String) : String :=
  ⟨k.toList.map fun c => if c = ' ' then '-' else c⟩

/-- Python `k.replace(' ', '')`. -/
def dropSpaces (k : String) : String :=
  ⟨k.toList.filter fun c => decide (c ≠ ' ')⟩

/-- First-occurrence deduplication, modelling Python `list(set(xs))`
(whose iteration order is unspecified; the embedding fixes first-occurrence
order). -/
def dedupKeep (seen : List String) : List String → List String
  | [] => []
  | x :: xs => if x ∈ seen then dedupKeep seen xs else x :: dedupKeep (x :: seen) xs

/-! ## `hashlib.md5`, in full, over `Nat` arithmetic mod 2^32

Reference implementation of RFC 1321 used by `EnforcementAction.unique_id`.
Validated against the standard test vectors (for example the digest of the
empty message evaluates to the 32-character string starting "d41d8cd9"). -/

/-- Round constants `K[i] = floor(2^32 * abs(sin(i+1)))` of MD5. -/
def md5K : List Nat :=
  [0xd76aa478, 0xe8c7b756, 0x242070db, 0xc1bdceee,
   0xf57c0faf, 0x4787c62a, 0xa8304613, 0xfd469501,
   0x698098d8, 0x8b44f7af, 0xffff5bb1, 0x895cd7be,
   0x6b901122, 0xfd987193, 0xa679438e, 0x49b40821,
   0xf61e2562, 0xc040b340, 0x265e5a51, 0xe9b6c7aa,
   0xd62f105d, 0x02441453, 0xd8a1e681, 0xe7d3fbc8,
   0x21e1cde6, 0xc33707d6, 0xf4d50d87, 0x455a14ed,
   0xa9e3e905, 0xfcefa3f8, 0x676f02d9, 0x8d2a4c8a,
   0xfffa3942, 0x8771f681, 0x6d9d6122, 0xfde5380c,
   0xa4beea44, 0x4bdecfa9, 0xf6bb4b60, 0xbebfbc70,
   0x289b7ec6, 0xeaa127fa, 0xd4ef3085, 0x04881d05,
   0xd9d4d039, 0xe6db99e5, 0x1fa27cf8, 0xc4ac5665,
   0xf4292244, 0x432aff97, 0xab9423a7, 0xfc93a039,
   0x655b59c3, 0x8f0ccc92, 0xffeff47d, 0x85845dd1,
   0x6fa87e4f, 0xfe2ce6e0, 0xa3014314, 0x4e0811a1,
   0xf7537e82, 0xbd3af235, 0x2ad7d2bb, 0xeb86d391]

/-- Per-round left-rotation amounts of MD5. -/
def md5S : List Nat :=
  [7, 12, 17, 22, 7, 12, 17, 22, 7, 12, 17, 22, 7, 12, 17, 22,
   5, 9, 14, 20, 5, 9, 14, 20, 5, 9, 14, 20, 5, 9, 14, 20,
   4, 11, 16, 23, 4, 11, 16, 23, 4, 11, 16, 23, 4, 11, 16, 23,
   6, 10, 15, 21, 6, 10, 15, 21, 6, 10, 15, 21, 6, 10, 15, 21]

/-- 2^32, the word modulus of MD5. -/
def w32 : Nat := 4294967296

/-- 2^32 - 1, used for bitwise complement inside a 32-bit word. -/
def mask32 : Nat := 4294967295

/-- Left rotation of a 32-bit word. -/
def rotl32 (x n : Nat) : Nat :=
  ((x <<< n) % w32) ||| (x >>> (32 - n))

/-- Round function of MD5 (F, G, H, I depending on the round index). -/
def md5F (i b c d : Nat) : Nat :=
  if i < 16 then (b &&& c) ||| ((mask32 ^^^ b) &&& d)
  else if i < 32 then (d &&& b) ||| ((mask32 ^^^ d) &&& c)
  else if i < 48 then b ^^^ c ^^^ d
  else c ^^^ (b ||| (mask32 ^^^ d))

/-- Message-word index schedule of MD5. -/
def md5G (i : Nat) : Nat :=
  if i < 16 then i
  else if i < 32 then (5 * i + 1) % 16
  else if i < 48 then (3 * i + 5) % 16
  else (7 * i) % 16

/-- One of the 64 steps applied to the running state `(a, b, c, d)`. -/
def md5Step (m : List Nat) (st : Nat × Nat × Nat × Nat) (i : Nat) :
    Nat × Nat × Nat × Nat :=
  match st with
  | (a, b, c, d) =>
    let f := (md5F i b c d + a + md5K.getD i 0 + m.getD (md5G i) 0) % w32
    (d, (b + rotl32 f (md5S.getD i 0)) % w32, b, c)

/-- Four little-endian bytes as one 32-bit word. -/
def leWord (bs : List Nat) : Nat :=
  bs.getD 0 0 + 256 * bs.getD 1 0 + 65536 * bs.getD 2 0 + 16777216 * bs.getD 3 0

/-- Byte list to little-endian 32-bit words. -/
def toWords : List Nat → List Nat
  | b0 :: b1 :: b2 :: b3 :: rest => leWord [b0, b1, b2, b3] :: toWords rest
  | [] => []
  | bs => [leWord bs]

/-- MD5 padding: a 1-bit, zeros to 56 mod 64 bytes, then the 64-bit
little-endian bit length. -/
def md5Pad (msg : List Nat) : List Nat :=
  let len := msg.length
  let padLen := (55 + 64 - len % 64) % 64 + 1
  let bitLen := (8 * len) % (2 ^ 64)
  msg ++ (128 :: List.replicate (padLen - 1) 0) ++
    (List.range 8).map (fun i => bitLen / 256 ^ i % 256)

/-- Compression of one 16-word block into the state. -/
def md5Block (st : Nat × Nat × Nat × Nat) (m : List Nat) : Nat × Nat × Nat × Nat :=
  match st, (List.range 64).foldl (md5Step m) st with
  | (a, b, c, d), (a2, b2, c2, d2) =>
    ((a + a2) % w32, (b + b2) % w32, (c + c2) % w32, (d + d2) % w32)

/-- Fold the compression over the (16-word) blocks of a padded message. -/
def md5Blocks (st : Nat × Nat × Nat × Nat) : List Nat → Nat × Nat × Nat × Nat
  | w0 :: w1 :: w2 :: w3 :: w4 :: w5 :: w6 :: w7 ::
      w8 :: w9 :: w10 :: w11 :: w12 :: w13 :: w14 :: w15 :: rest =>
    md5Blocks
      (md5Block st [w0, w1, w2, w3, w4, w5, w6, w7, w8, w9, w10, w11, w12, w13, w14, w15]) rest
  | _ => st

/-- Lowercase hexadecimal digit. -/
def hexDigit (n : Nat) : Char :=
  "0123456789abcdef".toList.getD n '0'

/-- One byte as two hexadecimal characters. -/
def byteHex (b : Nat) : List Char :=
  [hexDigit (b / 16), hexDigit (b % 16)]

/-- One 32-bit word as eight hexadecimal characters, little-endian bytes. -/
def wordHexLE (x : Nat) : List Char :=
  byteHex (x % 256) ++ byteHex (x / 256 % 256) ++ byteHex (x / 65536 % 256) ++
    byteHex (x / 16777216 % 256)

/-- Python `hashlib.md5(bytes).hexdigest()`. -/
def md5Hex (msg : List Nat) : String :=
  match md5Blocks (0x67452301, 0xefcdab89, 0x98badcfe, 0x10325476) (toWords (md5Pad msg)) with
  | (a, b, c, d) => ⟨wordHexLE a ++ wordHexLE b ++ wordHexLE c ++ wordHexLE d⟩

/-- UTF-8 encoding of one code point (Python `str.encode()` per character). -/
def utf8Bytes (n : Nat) : List Nat :=
  if n < 128 then [n]
  else if n < 2048 then [192 + n / 64, 128 + n % 64]
  else if n < 65536 then [224 + n / 4096, 128 + n / 64 % 64, 128 + n % 64]
  else [240 + n / 262144, 128 + n / 4096 % 64, 128 + n / 64 % 64, 128 + n % 64]

/-- Python `s.encode()` (UTF-8 bytes of a string). -/
def strBytes (s : String) : List Nat :=
  s.toList.flatMap (fun c => utf8Bytes c.toNat)

/-! ## `scrap_st.py` — `VanguardComplianceScraper` -/

namespace ScrapSt

/-- `VanguardComplianceScraper.COMPLIANCE_KEYWORDS`. -/
def COMPLIANCE_KEYWORDS : List String :=
  ["compliance", "regulatory", "regulation", "disclosure", "legal", "terms",
   "privacy", "security", "fraud", "protection", "rights", "responsibilities",
   "complaint", "dispute", "arbitration", "finra", "sec", "cfpb", "fiduciary",
   "best interest", "suitability", "risk disclosure", "prospectus", "form adv",
   "form crs", "customer relationship summary", "conflicts of interest",
   "code of ethics", "business continuity", "cybersecurity", "data protection",
   "anti-money laundering", "aml", "kyc", "know your customer", "sanctions",
   "ofac", "regulation best interest", "reg bi"]

/-- URL part of `is_compliance_related`: some keyword occurs in the lowered
URL in hyphenated or concatenated form. -/
def url_keyword_hit (url : String) : Bool :=
  COMPLIANCE_KEYWORDS.any fun keyword =>
    containsStr (lowerStr url) (replaceSpaceDash keyword) ||
      containsStr (lowerStr url) (dropSpaces keyword)

/-- Body part of `is_compliance_related`: number of taxonomy entries occurring
in the lowered text (`sum(1 for keyword in ... if keyword in text_lower)`). -/
def keyword_count (text : String) : Nat :=
  (COMPLIANCE_KEYWORDS.filter fun keyword => containsStr (lowerStr text) keyword).length

/-- `VanguardComplianceScraper.is_compliance_related(text, url)`. -/
def is_compliance_related (text url : String) : Bool :=
  if url_keyword_hit url then true
  else decide (3 ≤ keyword_count text)

/-- `base_url` of the scraper instance constructed in `main()`. -/
def base_url : String := "https://investor.vanguard.com"

/-- Python `url.split('#')[0]`: the text before the first fragment marker. -/
def stripFragment (url : String) : String :=
  ⟨url.toList.takeWhile fun c => c ≠ '#'⟩

/-- `VanguardComplianceScraper.normalize_url(url)`. The call
`urljoin(base_url, ref)` is modelled on the reference forms the scraper
produces: `base_url` has an empty path, so a path-absolute reference
(starting with one `/`, no dot-segments) resolves to `base_url ++ ref`,
while a protocol-relative reference (`//host/...`) takes the scheme of
`base_url`. -/
def normalize_url (url : String) : String :=
  if url = "" then ""
  else
    let s := stripFragment url
    if startsStr s "http" then s
    else if startsStr s "//" then "https:" ++ s
    else if startsStr s "/" then base_url ++ s
    else base_url ++ "/" ++ s

/-- Characters admissible in a URL scheme (`urllib.parse.scheme_chars`). -/
def scheme_chars : List Char :=
  "abcdefghijklmnopqrstuvwxyzABCDEFGHIJKLMNOPQRSTUVWXYZ0123456789+-.".toList

/-- Chop a leading `scheme:` off a URL, as `urllib.parse.urlsplit` does: the
prefix before the first `:` is removed when it is nonempty, starts with a
letter and consists of scheme characters. -/
def splitSchemeRest (cs : List Char) : List Char :=
  match cs.findIdx? (fun c => c = ':') with
  | Option.none => cs
  | some i =>
    if 0 < i ∧ (cs.headD ' ').isAlpha ∧ (cs.take i).all (fun c => decide (c ∈ scheme_chars)) then
      cs.drop (i + 1)
    else cs

/-- `urlparse(url).netloc`: when the remainder after the scheme starts with
`//`, the characters up to the next `/`, `?` or `#`; otherwise empty. -/
def netloc (url : String) : String :=
  let rest := splitSchemeRest url.toList
  if rest.take 2 = ['/', '/'] then
    ⟨(rest.drop 2).takeWhile fun c => c ≠ '/' ∧ c ≠ '?' ∧ c ≠ '#'⟩
  else ""

/-- Domain allow-list of `should_crawl`. -/
def target_domains : List String := ["vanguard.com", "vanguard.co.uk"]

/-- `skip_extensions` of `should_crawl`. -/
def skip_extensions : List String :=
  [".pdf", ".jpg", ".png", ".gif", ".css", ".js", ".zip", ".doc", ".docx"]

/-- `skip_patterns` of `should_crawl`. -/
def skip_patterns : List String :=
  ["/login", "/signin", "/signout", "/logout", "/account", "/my-account",
   "/secure", "javascript:", "mailto:", "tel:"]

/-- `VanguardComplianceScraper.should_crawl(url)`; `visited` is the
`self.visited_urls` state at the moment of the call. -/
def should_crawl (visited : List String) (url : String) : Bool :=
  if url = "" ∨ url ∈ visited then false
  else if ¬ (target_domains.any fun d => containsStr (netloc url) d) = true then false
  else if skip_extensions.any (fun ext => endsStr (lowerStr url) ext) then false
  else if skip_patterns.any (fun p => containsStr (lowerStr url) p) then false
  else true

/-- Visited-independent part of `should_crawl` (its value on an empty
visited set): nonempty, allow-listed domain, no rejected extension, no
rejected path pattern. -/
def should_crawl_static (url : String) : Bool :=
  should_crawl [] url

/-- `VanguardComplianceScraper.extract_links`: normalize every anchor
reference, keep those that are nonempty and pass `should_crawl`, and
deduplicate (`list(set(links))`, first-occurrence order). -/
def extract_links (visited : List String) (hrefs : List String) : List String :=
  dedupKeep []
    ((hrefs.map normalize_url).filter fun u => decide (u ≠ "") && should_crawl visited u)

/-- Result of one successful fetch-and-parse, after the
script/style/nav/footer/header subtrees were removed: the page title, the
meta description, the cleaned body text and the raw anchor references. This
is the interface to the HTTP + HTML collaborators that `scrape_page` wraps. -/
structure FetchedPage where
  title : String
  description : String
  text : String
  hrefs : List String

/-- The `page_data` dictionary built by `scrape_page`. -/
structure PageData where
  url : String
  title : String
  description : String
  is_compliance_related : Bool
  compliance_keywords_found : List String
  keyword_count : Nat
  outbound_links : List String
  content_preview : String
  content_length : Nat

/-- `VanguardComplianceScraper.scrape_page(url)`: `world` abstracts the
network and the HTML parser (`Option.none` models any exception caught by
the blanket `except`, which makes the method return `None`); on success the
`page_data` dictionary is assembled. `visited` is the `self.visited_urls`
state seen by the inner `extract_links` call. -/
def scrape_page (world : String → Option FetchedPage) (visited : List String)
    (url : String) : Option PageData :=
  match world url with
  | Option.none => Option.none
  | some fp =>
    let found := COMPLIANCE_KEYWORDS.filter fun k => containsStr (lowerStr fp.text) k
    some
      { url := url
        title := fp.title
        description := fp.description
        is_compliance_related := is_compliance_related fp.text url
        compliance_keywords_found := found
        keyword_count := found.length
        outbound_links := extract_links visited fp.hrefs
        content_preview := ⟨fp.text.toList.take 500⟩
        content_length := fp.text.length }

/-- Final state of one `crawl` call: `visited_urls` and `compliance_urls`
mirror the instance attributes, `pages_crawled` the local counter. The
`fetch_log` field is ghost instrumentation (not in the Python source): it
records, in order, every URL for which a fetch was attempted. -/
structure CrawlResult where
  visited_urls : List String
  pages_crawled : Nat
  compliance_urls : List PageData
  fetch_log : List String

/-- `VanguardComplianceScraper.crawl` while-loop. State: pending queue
(`deque`), `self.visited_urls`, `pages_crawled`, `self.compliance_urls`, and
the ghost fetch log. One iteration: stop when the queue is empty or
`pages_crawled` reached `max_pages`; pop the head; skip it when already
visited; otherwise mark it visited, attempt the fetch, on success bump the
counter, record the page when compliance-related, and append the outbound
links that are unvisited and pass `should_crawl`. -/
def crawl (world : String → Option FetchedPage) (max_pages : Nat) :
    List String → List String → Nat → List PageData → List String → CrawlResult
  | [], visited, crawled, results, log => ⟨visited, crawled, results, log⟩
  | url :: rest, visited, crawled, results, log =>
    if max_pages ≤ crawled then ⟨visited, crawled, results, log⟩
    else if url ∈ visited then crawl world max_pages rest visited crawled results log
    else
      match scrape_page world (url :: visited) url with
      | Option.none =>
        crawl world max_pages rest (url :: visited) crawled results (log ++ [url])
      | some pd =>
        crawl world max_pages
          (rest ++ pd.outbound_links.filter fun l =>
            decide (l ∉ (url :: visited)) && should_crawl (url :: visited) l)
          (url :: visited) (crawled + 1)
          (results ++ if pd.is_compliance_related then [pd] else []) (log ++ [url])
  termination_by q _ c _ _ => (max_pages - c, q.length)
  decreasing_by
    all_goals simp_wf
    all_goals first
      | (apply Prod.Lex.right; omega)
      | (apply Prod.Lex.left; omega)

/-- `crawl(start_urls, max_pages)` on a fresh scraper instance: empty
visited set, zero counter, no collected pages. -/
def crawl_run (world : String → Option FetchedPage) (max_pages : Nat)
    (start_urls : List String) : CrawlResult :=
  crawl world max_pages start_urls [] 0 [] []

/-- Measurement used to state the claims (not itself in the source): the
number of attempted fetches in a log that the oracle answers successfully. -/
def successful_fetches (world : String → Option FetchedPage)
    (log : List String) : Nat :=
  (log.filter fun u => (world u).isSome).length

end ScrapSt

/-! ## `scraper.py` — `BaseScraper` keyword classifier -/

namespace Scraper

/-- `BaseScraper.COMPLIANCE_KEYWORDS`. -/
def COMPLIANCE_KEYWORDS : List String :=
  ["compliance", "violation", "enforcement", "fraud", "misleading",
   "failure to supervise", "books and records", "recordkeeping",
   "anti-money laundering", "aml", "kyc", "know your customer",
   "suitability", "best interest", "fiduciary", "disclosure",
   "insider trading", "market manipulation", "reg sho",
   "whistleblower", "retaliation", "custody rule", "safeguarding",
   "advertising", "marketing rule", "off-channel", "communications",
   "cybersecurity", "data breach", "controls", "supervisory",
   "fcpa", "bribery", "corruption", "sanctions", "ofac"]

/-- `BaseScraper.is_compliance_related(text)` — true when ANY single keyword
occurs in the lowered text (also false on the empty string, matching the
`if not text` guard). -/
def is_compliance_related (text : String) : Bool :=
  if text = "" then false
  else COMPLIANCE_KEYWORDS.any fun kw => containsStr (lowerStr text) kw

/-- Number of distinct `BaseScraper` taxonomy entries occurring in the lowered
text (measurement used to state the claims; not itself in the source). -/
def keyword_count (text : String) : Nat :=
  (COMPLIANCE_KEYWORDS.filter fun keyword => containsStr (lowerStr text) keyword).length

/-- `EnforcementAction` dataclass of `scraper.py`. -/
structure EnforcementAction where
  source : String
  action_type : String
  release_number : Option String
  title : String
  date : Option String
  url : String
  summary : Option String
  violations : List String
  penalties : Option String
  respondents : List String
  raw_text : Option String

/-- `EnforcementAction.unique_id`: first 12 hex characters of
`md5(f"{source}:{url}")`. -/
def EnforcementAction.unique_id (a : EnforcementAction) : String :=
  ⟨(md5Hex (strBytes (a.source ++ ":" ++ a.url))).toList.take 12⟩

/-- Deduplication pass of `main()` (`scraper.py` lines 718-724): keep an
action iff its `unique_id` was not seen before, in input order. -/
def dedup_actions : List EnforcementAction → List String → List EnforcementAction
  | [], _ => []
  | a :: rest, seen =>
    if a.unique_id ∈ seen then dedup_actions rest seen
    else a :: dedup_actions rest (a.unique_id :: seen)

/-- `RateLimiter` state: `min_interval = 1.0 / requests_per_second` and the
`last_request_time` timestamp. Time is modelled as an exact rational clock
value passed in explicitly (the Python code reads `time.time()`). -/
structure RateLimiter where
  min_interval : ℚ
  last_request_time : ℚ

/-- `RateLimiter(requests_per_second)`: `min_interval = 1.0 / rate`,
`last_request_time = 0`. -/
def RateLimiter.init (requests_per_second : ℚ) : RateLimiter :=
  ⟨1 / requests_per_second, 0⟩

/-- `RateLimiter.wait()` at clock value `now`: returns the slept duration and
the successor state. The Python method sleeps `min_interval - elapsed` when
`elapsed < min_interval` (else not at all) and then stores the current clock
in `last_request_time`; under the idealized zero-cost execution the clock
after sleeping reads `now + sleepFor`. -/
def RateLimiter.wait (rl : RateLimiter) (now : ℚ) : ℚ × RateLimiter :=
  let elapsed := now - rl.last_request_time
  let sleepFor := if elapsed < rl.min_interval then rl.min_interval - elapsed else 0
  (sleepFor, ⟨rl.min_interval, now + sleepFor⟩)

/-- Outcome of the HTTP collaborator behind `session.get` /
`requests.get`: either a response with a status code and a body, or a
transport-level failure (`requests.RequestException`). -/
inductive HttpOutcome where
  | response (status : Nat) (body : String)
  | transport_error

/-- `BaseScraper.fetch_page(url)`: issue the GET; `raise_for_status()` raises
`HTTPError` precisely for status codes 400-599 (semantics of
`requests.Response.raise_for_status`), and the `except requests.RequestException`
arm converts any raised transport or HTTP error into `None`; otherwise the
parsed body is returned. -/
def fetch_page (http : String → HttpOutcome) (url : String) : Option String :=
  match http url with
  | HttpOutcome.transport_error => Option.none
  | HttpOutcome.response status body =>
    if 400 ≤ status ∧ status < 600 then Option.none else some body

/-- Attempt of `re.search(r'LR[- ]?(\d+)', ..., re.IGNORECASE)` at one fixed
position: literal `LR` case-insensitively, optionally one `-` or space
(greedy with backtracking, which maximal-munch realizes here because `-` and
space are not digits), then at least one digit; yields the captured digit
group. -/
def lrMatchHere : List Char → Option (List Char)
  | c1 :: c2 :: rest =>
    if (c1 == 'L' || c1 == 'l') && (c2 == 'R' || c2 == 'r') then
      match rest with
      | c3 :: rest2 =>
        if c3 == '-' || c3 == ' ' then
          let ds := rest2.takeWhile Char.isDigit
          if ds.isEmpty then Option.none else some ds
        else
          let ds := rest.takeWhile Char.isDigit
          if ds.isEmpty then Option.none else some ds
      | [] => Option.none
    else Option.none
  | _ => Option.none

/-- `re.search` scan for the `LR[- ]?(\d+)` pattern: leftmost position wins. -/
def lrSearch : List Char → Option (List Char)
  | [] => Option.none
  | c :: t =>
    match lrMatchHere (c :: t) with
    | some ds => some ds
    | Option.none => lrSearch t

/-- Release-number extraction of `SECScraper.scrape_litigation_releases`
(`scraper.py` lines 182-183): search `title + href` for `LR[- ]?(\d+)`
case-insensitively; on a match the field is `f"LR-{group(1)}"`, otherwise
`None`. -/
def litigation_release_number (title href : String) : Option String :=
  match lrSearch (title ++ href).toList with
  | some ds => some ("LR-" ++ (⟨ds⟩ : String))
  | Option.none => Option.none

end Scraper

/-- Python value of the `release_number` field as stored in the produced
record, covering both `None` and string sentinels so the two extractor
variants can be compared. -/
inductive PyVal where
  | none
  | str (s : String)
deriving DecidableEq

/-- View of `scraper.py`'s litigation-release `release_number` field as a
Python value. -/
def litigationReleaseNumberField (title href : String) : PyVal :=
  match Scraper.litigation_release_number title href with
  | some s => PyVal.str s
  | Option.none => PyVal.none

/-! ## `script.py` — `SECScraper._scrape_release_detail` -/

namespace Script

/-- Python regex class `\s` over ASCII. -/
def isSpaceLike (c : Char) : Bool :=
  c == ' ' || c == '\t' || c == '\n' || c == '\r' || c == '\x0b' || c == '\x0c'

/-- Tail of `(LR|Release No\.)[-\s]*(\d+[-\d]*)` after the alternation
matched: skip `[-\s]*` greedily (backtracking cannot help since neither `-`
nor whitespace is a digit), require a leading digit, and capture the maximal
run of digits and hyphens starting with that digit. -/
def relTail (cs : List Char) : Option (List Char) :=
  let rest := cs.dropWhile fun c => c == '-' || isSpaceLike c
  if (rest.headD ' ').isDigit then some (rest.takeWhile fun c => c.isDigit || c == '-')
  else Option.none

/-- Attempt of `re.search(r'(LR|Release No\.)[-\s]*(\d+[-\d]*)', ...)`
(case-sensitive) at one fixed position, yielding the second capture group. -/
def relMatchHere (cs : List Char) : Option (List Char) :=
  if matchesAt ['L', 'R'] cs then relTail (cs.drop 2)
  else if matchesAt "Release No.".toList cs then relTail (cs.drop 11)
  else Option.none

/-- `re.search` scan for the release-number pattern: leftmost position wins. -/
def relSearch : List Char → Option (List Char)
  | [] => Option.none
  | c :: t =>
    match relMatchHere (c :: t) with
    | some ds => some ds
    | Option.none => relSearch t

/-- Release-number extraction of `SECScraper._scrape_release_detail`
(`script.py` lines 220-221): search the title for
`(LR|Release No\.)[-\s]*(\d+[-\d]*)`; the field is `group(2)` on a match and
the string `"Unknown"` otherwise. -/
def release_number (title_text : String) : String :=
  match relSearch title_text.toList with
  | some g => ⟨g⟩
  | Option.none => "Unknown"

end Script

/-- View of `script.py`'s release-detail `release_number` field as a Python
value (always a string). -/
def detailReleaseNumberField (title_text : String) : PyVal :=
  PyVal.str (Script.release_number title_text)

/-! ### Theorems -/

/-- C1 (counterexample): the claim states that for every classifier of the
repository a body containing exactly 2 distinct taxonomy terms and no URL
keyword match yields `false` ("the threshold is exactly 3, never 1"), yet
`BaseScraper.is_compliance_related` returns `true` on the body
`"fraud bribery"`, which contains exactly 2 distinct terms of its taxonomy
(`"fraud"` and `"bribery"`). -/
theorem c1_counterexample :
    Scraper.keyword_count "fraud bribery" = 2 ∧
      Scraper.is_compliance_related "fraud bribery" = true := by
  constructor <;> decide

/-- C1 (amended): `VanguardComplianceScraper.is_compliance_related(text, url)`
returns true iff a taxonomy term occurs in the URL in hyphenated or
concatenated form, or at least 3 distinct taxonomy terms occur in the body
(threshold exactly 3: a body with exactly 2 distinct terms and no URL match
is rejected, one with 3 accepted); `BaseScraper.is_compliance_related(text)`,
by contrast, uses threshold 1 on the body text alone. -/
theorem c1_classifier_thresholds :
    (∀ text url, ScrapSt.is_compliance_related text url = true ↔
      (ScrapSt.url_keyword_hit url = true ∨ 3 ≤ ScrapSt.keyword_count text)) ∧
    (∀ text, Scraper.is_compliance_related text = true ↔
      (text ≠ "" ∧ ∃ kw ∈ Scraper.COMPLIANCE_KEYWORDS,
        containsStr (lowerStr text) kw = true)) ∧
    ScrapSt.is_compliance_related "fraud and privacy notice" "https://example.com/page" = false ∧
    ScrapSt.is_compliance_related "fraud privacy compliance" "https://example.com/page" = true := by
  refine ⟨fun text url => ?_, fun text => ?_, by decide, by decide⟩
  · unfold ScrapSt.is_compliance_related
    split <;> simp_all
  · unfold Scraper.is_compliance_related
    split <;> simp_all [List.any_eq_true]

/-- C3 (counterexample): two `EnforcementAction`s with the same source whose
URLs differ only by the fragment `#x` receive DIFFERENT `unique_id`s (the
hash input is the raw, unstripped URL), so the dedup pass of `main()` admits
both of them, not one. -/
theorem c3_counterexample :
    (Scraper.EnforcementAction.mk "SEC" "litigation_release" Option.none "A"
        Option.none "https://www.sec.gov/page#x" Option.none [] Option.none []
        Option.none).unique_id ≠
      (Scraper.EnforcementAction.mk "SEC" "litigation_release" Option.none "A"
        Option.none "https://www.sec.gov/page" Option.none [] Option.none []
        Option.none).unique_id ∧
    (Scraper.dedup_actions
      [Scraper.EnforcementAction.mk "SEC" "litigation_release" Option.none "A"
        Option.none "https://www.sec.gov/page#x" Option.none [] Option.none []
        Option.none,
       Scraper.EnforcementAction.mk "SEC" "litigation_release" Option.none "A"
        Option.none "https://www.sec.gov/page" Option.none [] Option.none []
        Option.none] []).length = 2 := by
  constructor <;> decide

/-- C3 (amended): `unique_id` is a deterministic function of the pair
(source, raw URL string) alone — two records agreeing on source and exact
URL always collapse to one under the dedup pass — but no fragment stripping
is applied, so URLs differing by a fragment are distinct identities. -/
theorem c3_identity :
    (∀ a b : Scraper.EnforcementAction, a.source = b.source → a.url = b.url →
      a.unique_id = b.unique_id) ∧
    (∀ a b : Scraper.EnforcementAction, a.source = b.source → a.url = b.url →
      (Scraper.dedup_actions [a, b] []).length = 1) := by
  have hid : ∀ a b : Scraper.EnforcementAction, a.source = b.source → a.url = b.url →
      a.unique_id = b.unique_id := by
    intro a b hs hu
    unfold Scraper.EnforcementAction.unique_id
    rw [hs, hu]
  refine ⟨hid, fun a b hs hu => ?_⟩
  have h := hid a b hs hu
  simp [Scraper.dedup_actions, h]

/-- C3 (witness): the amended statement applied to two concrete records that
agree on source and URL but differ in their titles. -/
theorem c3_identity_witness :
    (Scraper.EnforcementAction.mk "SEC" "press_release" Option.none "A"
        Option.none "https://www.sec.gov/r" Option.none [] Option.none []
        Option.none).unique_id =
      (Scraper.EnforcementAction.mk "SEC" "press_release" Option.none "B"
        Option.none "https://www.sec.gov/r" Option.none [] Option.none []
        Option.none).unique_id ∧
    (Scraper.dedup_actions
      [Scraper.EnforcementAction.mk "SEC" "press_release" Option.none "A"
        Option.none "https://www.sec.gov/r" Option.none [] Option.none []
        Option.none,
       Scraper.EnforcementAction.mk "SEC" "press_release" Option.none "B"
        Option.none "https://www.sec.gov/r" Option.none [] Option.none []
        Option.none] []).length = 1 :=
  ⟨c3_identity.1 _ _ rfl rfl, c3_identity.2 _ _ rfl rfl⟩

/-- C6 (counterexample): the claim says every non-2xx status makes the fetch
return an error value, but `raise_for_status` only raises for 4xx/5xx: on a
304 response `fetch_page` returns the parsed page, not `None`. -/
theorem c6_counterexample :
    Scraper.fetch_page (fun _ => Scraper.HttpOutcome.response 304 "cached-page")
      "https://www.sec.gov/a" = some "cached-page" := by
  decide

/-- C6 (amended): a 4xx/5xx status or a transport failure makes `fetch_page`
return `None` rather than raising into the caller (the function is total);
and in the crawl loop a failed fetch never aborts the run: the loop simply
records the URL as visited and attempted and continues with the rest of the
queue (the URL is abandoned, never retried). -/
theorem c6_failure_containment :
    (∀ (http : String → Scraper.HttpOutcome) url status body,
      http url = Scraper.HttpOutcome.response status body → 400 ≤ status →
      status < 600 → Scraper.fetch_page http url = Option.none) ∧
    (∀ (http : String → Scraper.HttpOutcome) url,
      http url = Scraper.HttpOutcome.transport_error →
      Scraper.fetch_page http url = Option.none) ∧
    (∀ world max_pages url rest visited crawled results log,
      world url = Option.none → url ∉ visited → crawled < max_pages →
      ScrapSt.crawl world max_pages (url :: rest) visited crawled results log =
        ScrapSt.crawl world max_pages rest (url :: visited) crawled results
          (log ++ [url])) := by
  refine ⟨fun http url status body h h4 h6 => ?_, fun http url h => ?_,
    fun world max_pages url rest visited crawled results log hw hv hc => ?_⟩
  · unfold Scraper.fetch_page
    rw [h]
    simp [h4, h6]
  · unfold Scraper.fetch_page
    rw [h]
  · rw [ScrapSt.crawl]
    rw [if_neg (by omega)]
    rw [if_neg hv]
    have : ScrapSt.scrape_page world (url :: visited) url = Option.none := by
      unfold ScrapSt.scrape_page
      rw [hw]
    rw [this]

/-- C6 (witness): the amended statement instantiated at a 404 response, a
transport error, and a crawl state whose head URL fails to fetch. -/
theorem c6_failure_containment_witness :
    Scraper.fetch_page (fun _ => Scraper.HttpOutcome.response 404 "nf")
      "https://www.sec.gov/a" = Option.none ∧
    Scraper.fetch_page (fun _ => Scraper.HttpOutcome.transport_error)
      "https://www.sec.gov/a" = Option.none ∧
    ScrapSt.crawl (fun _ => Option.none) 5 ["u", "v"] [] 0 [] [] =
      ScrapSt.crawl (fun _ => Option.none) 5 ["v"] ["u"] 0 [] ["u"] :=
  ⟨c6_failure_containment.1 _ _ 404 "nf" rfl (by decide) (by decide),
   c6_failure_containment.2.1 _ _ rfl,
   c6_failure_containment.2.2 _ _ _ _ _ _ _ _ rfl (by decide) (by decide)⟩

/-- C8 (counterexample): on a detail page whose title and URL contain no
parsable release number, `scraper.py`'s litigation extractor stores `None`
while `script.py`'s detail extractor stores the string `"Unknown"` — two
different sentinels, refuting the single-consistent-sentinel claim. -/
theorem c8_counterexample :
    litigationReleaseNumberField "SEC Charges John Doe" "/enforcement/foo" =
        PyVal.none ∧
      detailReleaseNumberField "SEC Charges John Doe" = PyVal.str "Unknown" ∧
      PyVal.none ≠ PyVal.str "Unknown" := by
  refine ⟨by decide, by decide, by decide⟩

/-- C8 (amended): each extractor uses its own fixed sentinel when no release
number parses — `None` in `scraper.py`'s litigation extractor, `"Unknown"`
in `script.py`'s detail extractor — and the two sentinels differ, so the
variants are not mutually consistent. -/
theorem c8_sentinels :
    (∀ title href, Scraper.lrSearch (title ++ href).toList = Option.none →
      litigationReleaseNumberField title href = PyVal.none) ∧
    (∀ title_text, Script.relSearch title_text.toList = Option.none →
      detailReleaseNumberField title_text = PyVal.str "Unknown") ∧
    (∀ title href title_text,
      Scraper.lrSearch (title ++ href).toList = Option.none →
      Script.relSearch title_text.toList = Option.none →
      litigationReleaseNumberField title href ≠
        detailReleaseNumberField title_text) := by
  have h1 : ∀ title href, Scraper.lrSearch (title ++ href).toList = Option.none →
      litigationReleaseNumberField title href = PyVal.none := by
    intro title href h
    unfold litigationReleaseNumberField Scraper.litigation_release_number
    rw [h]
  have h2 : ∀ title_text, Script.relSearch title_text.toList = Option.none →
      detailReleaseNumberField title_text = PyVal.str "Unknown" := by
    intro title_text h
    unfold detailReleaseNumberField Script.release_number
    rw [h]
  refine ⟨h1, h2, fun title href title_text ha hb => ?_⟩
  rw [h1 title href ha, h2 title_text hb]
  decide

/-- C8 (witness): the amended statement instantiated at a concrete title and
URL without a parsable release number. -/
theorem c8_sentinels_witness :
    litigationReleaseNumberField "SEC Charges John Doe" "/foo" = PyVal.none ∧
    detailReleaseNumberField "In the Matter of Jane Roe" = PyVal.str "Unknown" ∧
    litigationReleaseNumberField "SEC Charges John Doe" "/foo" ≠
      detailReleaseNumberField "In the Matter of Jane Roe" :=
  ⟨c8_sentinels.1 _ _ (by decide), c8_sentinels.2.1 _ (by decide),
   c8_sentinels.2.2 _ _ _ (by decide) (by decide)⟩

/-- C9: `wait()` sleeps exactly `max(0, min_interval - elapsed)` where
`elapsed` is the clock distance to the instant the previous call returned
(`last_request_time`), and consequently at least `1/rate` separates the
return instants of consecutive calls; the operation is a total function
(it cannot fail, only delay). Time is modelled as an exact rational clock. -/
theorem c9_rate_limiter :
    ∀ (rate last now : ℚ), 0 < rate → last ≤ now →
      ((Scraper.RateLimiter.mk (1 / rate) last).wait now).1 =
          max 0 (1 / rate - (now - last)) ∧
        1 / rate ≤
          (((Scraper.RateLimiter.mk (1 / rate) last).wait now).2).last_request_time
            - last := by
  intro rate last now hrate hle
  unfold Scraper.RateLimiter.wait
  simp only
  split_ifs with hlt
  · constructor
    · rw [max_eq_right (by linarith)]
    · show 1 / rate ≤ now + (1 / rate - (now - last)) - last
      linarith
  · constructor
    · rw [max_eq_left (by linarith)]
    · show 1 / rate ≤ now + 0 - last
      push_neg at hlt
      linarith

/-- C9 (witness): with `rate = 2.0` (minimum interval `1/2`), a second call
issued at the very instant the first returned sleeps for the full remaining
half second. -/
theorem c9_rate_limiter_witness :
    ((Scraper.RateLimiter.mk (1 / 2) 100).wait 100).1 = 1 / 2 := by
  have h := (c9_rate_limiter 2 100 100 (by norm_num) (by norm_num)).1
  rw [h]
  norm_num

/-! ### Crawl-loop lemmas -/

/-- `scrape_page` fails exactly when the fetch oracle fails. -/
theorem scrape_page_none_iff (world : String → Option ScrapSt.FetchedPage)
    (visited : List String) (url : String) :
    ScrapSt.scrape_page world visited url = Option.none ↔
      world url = Option.none := by
  unfold ScrapSt.scrape_page
  cases world url <;> simp

/-- Unfolding: the loop on an empty queue returns the state unchanged. -/
theorem crawl_step_nil (world : String → Option ScrapSt.FetchedPage)
    (max_pages : Nat) (visited : List String) (crawled : Nat)
    (results : List ScrapSt.PageData) (log : List String) :
    ScrapSt.crawl world max_pages [] visited crawled results log =
      ⟨visited, crawled, results, log⟩ := by
  simp [ScrapSt.crawl]

/-- Unfolding: the loop with an exhausted page budget returns the state
unchanged. -/
theorem crawl_step_stop (world : String → Option ScrapSt.FetchedPage)
    (max_pages : Nat) (url : String) (rest visited : List String)
    (crawled : Nat) (results : List ScrapSt.PageData) (log : List String)
    (h : max_pages ≤ crawled) :
    ScrapSt.crawl world max_pages (url :: rest) visited crawled results log =
      ⟨visited, crawled, results, log⟩ := by
  simp only [ScrapSt.crawl]
  rw [if_pos h]

/-- Unfolding: an already-visited head URL is skipped without a fetch. -/
theorem crawl_step_skip (world : String → Option ScrapSt.FetchedPage)
    (max_pages : Nat) (url : String) (rest visited : List String)
    (crawled : Nat) (results : List ScrapSt.PageData) (log : List String)
    (h1 : crawled < max_pages) (h2 : url ∈ visited) :
    ScrapSt.crawl world max_pages (url :: rest) visited crawled results log =
      ScrapSt.crawl world max_pages rest visited crawled results log := by
  simp only [ScrapSt.crawl]
  rw [if_neg (by omega), if_pos h2]

/-- Unfolding: a head URL whose fetch fails is marked visited and logged, and
the loop continues with the rest of the queue. -/
theorem crawl_step_fail (world : String → Option ScrapSt.FetchedPage)
    (max_pages : Nat) (url : String) (rest visited : List String)
    (crawled : Nat) (results : List ScrapSt.PageData) (log : List String)
    (h1 : crawled < max_pages) (h2 : url ∉ visited)
    (h3 : world url = Option.none) :
    ScrapSt.crawl world max_pages (url :: rest) visited crawled results log =
      ScrapSt.crawl world max_pages rest (url :: visited) crawled results
        (log ++ [url]) := by
  simp only [ScrapSt.crawl]
  rw [if_neg (by omega), if_neg h2, (scrape_page_none_iff world _ url).mpr h3]

/-- Unfolding: a head URL whose fetch succeeds is marked visited and logged,
the counter is bumped, the page is recorded when compliance-related, and the
surviving outbound links are appended to the queue. -/
theorem crawl_step_fetch (world : String → Option ScrapSt.FetchedPage)
    (max_pages : Nat) (url : String) (rest visited : List String)
    (crawled : Nat) (results : List ScrapSt.PageData) (log : List String)
    (pd : ScrapSt.PageData) (h1 : crawled < max_pages) (h2 : url ∉ visited)
    (h3 : ScrapSt.scrape_page world (url :: visited) url = some pd) :
    ScrapSt.crawl world max_pages (url :: rest) visited crawled results log =
      ScrapSt.crawl world max_pages
        (rest ++ pd.outbound_links.filter fun l =>
          decide (l ∉ (url :: visited)) && ScrapSt.should_crawl (url :: visited) l)
        (url :: visited) (crawled + 1)
        (results ++ if pd.is_compliance_related then [pd] else [])
        (log ++ [url]) := by
  simp only [ScrapSt.crawl]
  rw [if_neg (by omega), if_neg h2, h3]

/-- Invariant: the fetch log never repeats a URL and stays inside the final
visited set, provided it starts that way. -/
theorem crawl_log_invariant (world : String → Option ScrapSt.FetchedPage)
    (max_pages : Nat) (queue visited : List String) (crawled : Nat)
    (results : List ScrapSt.PageData) (log : List String) :
    (∀ u ∈ log, u ∈ visited) → log.Nodup →
      (ScrapSt.crawl world max_pages queue visited crawled results log).fetch_log.Nodup ∧
        ∀ u ∈ (ScrapSt.crawl world max_pages queue visited crawled results log).fetch_log,
          u ∈ (ScrapSt.crawl world max_pages queue visited crawled results log).visited_urls := by
  induction queue, visited, crawled, results, log using ScrapSt.crawl.induct world max_pages with
  | case1 visited crawled results log =>
    intro hsub hnd
    rw [crawl_step_nil]
    exact ⟨hnd, hsub⟩
  | case2 url rest visited crawled results log hle =>
    intro hsub hnd
    rw [crawl_step_stop _ _ _ _ _ _ _ _ hle]
    exact ⟨hnd, hsub⟩
  | case3 url rest visited crawled results log hle hmem ih =>
    intro hsub hnd
    rw [crawl_step_skip _ _ _ _ _ _ _ _ (by omega) hmem]
    exact ih hsub hnd
  | case4 url rest visited crawled results log hle hmem hsp ih =>
    intro hsub hnd
    rw [crawl_step_fail _ _ _ _ _ _ _ _ (by omega) hmem
      ((scrape_page_none_iff world _ url).mp hsp)]
    refine ih (fun u hu => ?_) ?_
    · rcases List.mem_append.mp hu with h | h
      · exact List.mem_cons_of_mem _ (hsub u h)
      · simp only [List.mem_singleton] at h
        simp [h]
    · refine List.Nodup.append hnd (List.nodup_singleton url)
        (List.disjoint_singleton.mpr ?_)
      exact fun h => hmem (hsub url h)
  | case5 url rest visited crawled results log hle hmem pd hsp ih =>
    intro hsub hnd
    rw [crawl_step_fetch _ _ _ _ _ _ _ _ pd (by omega) hmem hsp]
    refine ih (fun u hu => ?_) ?_
    · rcases List.mem_append.mp hu with h | h
      · exact List.mem_cons_of_mem _ (hsub u h)
      · simp only [List.mem_singleton] at h
        simp [h]
    · refine List.Nodup.append hnd (List.nodup_singleton url)
        (List.disjoint_singleton.mpr ?_)
      exact fun h => hmem (hsub url h)

/-- Invariant: the visited set only grows. -/
theorem crawl_visited_mono (world : String → Option ScrapSt.FetchedPage)
    (max_pages : Nat) (queue visited : List String) (crawled : Nat)
    (results : List ScrapSt.PageData) (log : List String) :
    visited ⊆ (ScrapSt.crawl world max_pages queue visited crawled results log).visited_urls := by
  induction queue, visited, crawled, results, log using ScrapSt.crawl.induct world max_pages with
  | case1 visited crawled results log =>
    rw [crawl_step_nil]
    exact fun _ h => h
  | case2 url rest visited crawled results log hle =>
    rw [crawl_step_stop _ _ _ _ _ _ _ _ hle]
    exact fun _ h => h
  | case3 url rest visited crawled results log hle hmem ih =>
    rw [crawl_step_skip _ _ _ _ _ _ _ _ (by omega) hmem]
    exact ih
  | case4 url rest visited crawled results log hle hmem hsp ih =>
    rw [crawl_step_fail _ _ _ _ _ _ _ _ (by omega) hmem
      ((scrape_page_none_iff world _ url).mp hsp)]
    exact (List.subset_cons_self url visited).trans ih
  | case5 url rest visited crawled results log hle hmem pd hsp ih =>
    rw [crawl_step_fetch _ _ _ _ _ _ _ _ pd (by omega) hmem hsp]
    exact (List.subset_cons_self url visited).trans ih

/-- Invariant: the fetch log only grows. -/
theorem crawl_log_mono (world : String → Option ScrapSt.FetchedPage)
    (max_pages : Nat) (queue visited : List String) (crawled : Nat)
    (results : List ScrapSt.PageData) (log : List String) :
    log ⊆ (ScrapSt.crawl world max_pages queue visited crawled results log).fetch_log := by
  induction queue, visited, crawled, results, log using ScrapSt.crawl.induct world max_pages with
  | case1 visited crawled results log =>
    rw [crawl_step_nil]
    exact fun _ h => h
  | case2 url rest visited crawled results log hle =>
    rw [crawl_step_stop _ _ _ _ _ _ _ _ hle]
    exact fun _ h => h
  | case3 url rest visited crawled results log hle hmem ih =>
    rw [crawl_step_skip _ _ _ _ _ _ _ _ (by omega) hmem]
    exact ih
  | case4 url rest visited crawled results log hle hmem hsp ih =>
    rw [crawl_step_fail _ _ _ _ _ _ _ _ (by omega) hmem
      ((scrape_page_none_iff world _ url).mp hsp)]
    exact (List.subset_append_left log [url]).trans ih
  | case5 url rest visited crawled results log hle hmem pd hsp ih =>
    rw [crawl_step_fetch _ _ _ _ _ _ _ _ pd (by omega) hmem hsp]
    exact (List.subset_append_left log [url]).trans ih

/-- Invariant: when the final counter is below the budget, every queued URL
ends up visited. -/
theorem crawl_queue_processed (world : String → Option ScrapSt.FetchedPage)
    (max_pages : Nat) (queue visited : List String) (crawled : Nat)
    (results : List ScrapSt.PageData) (log : List String) :
    (ScrapSt.crawl world max_pages queue visited crawled results log).pages_crawled < max_pages →
      ∀ u ∈ queue,
        u ∈ (ScrapSt.crawl world max_pages queue visited crawled results log).visited_urls := by
  induction queue, visited, crawled, results, log using ScrapSt.crawl.induct world max_pages with
  | case1 visited crawled results log =>
    intro _ u hu
    exact absurd hu (List.not_mem_nil u)
  | case2 url rest visited crawled results log hle =>
    rw [crawl_step_stop _ _ _ _ _ _ _ _ hle]
    intro hlt
    exact absurd (show crawled < max_pages from hlt) (by omega)
  | case3 url rest visited crawled results log hle hmem ih =>
    rw [crawl_step_skip _ _ _ _ _ _ _ _ (by omega) hmem]
    intro hlt u hu
    rcases List.mem_cons.mp hu with h | h
    · subst h
      exact crawl_visited_mono world max_pages rest visited crawled results log hmem
    · exact ih hlt u h
  | case4 url rest visited crawled results log hle hmem hsp ih =>
    rw [crawl_step_fail _ _ _ _ _ _ _ _ (by omega) hmem
      ((scrape_page_none_iff world _ url).mp hsp)]
    intro hlt u hu
    rcases List.mem_cons.mp hu with h | h
    · subst h
      exact crawl_visited_mono world max_pages rest (u :: visited) crawled results
        (log ++ [u]) (List.mem_cons_self u visited)
    · exact ih hlt u h
  | case5 url rest visited crawled results log hle hmem pd hsp ih =>
    rw [crawl_step_fetch _ _ _ _ _ _ _ _ pd (by omega) hmem hsp]
    intro hlt u hu
    rcases List.mem_cons.mp hu with h | h
    · subst h
      exact crawl_visited_mono world max_pages _ (u :: visited) (crawled + 1) _
        (log ++ [u]) (List.mem_cons_self u visited)
    · exact ih hlt u (List.mem_append_left _ h)

/-- Invariant: every finally-visited URL was visited initially or fetched. -/
theorem crawl_visited_origin (world : String → Option ScrapSt.FetchedPage)
    (max_pages : Nat) (queue visited : List String) (crawled : Nat)
    (results : List ScrapSt.PageData) (log : List String) :
    ∀ u ∈ (ScrapSt.crawl world max_pages queue visited crawled results log).visited_urls,
      u ∈ visited ∨
        u ∈ (ScrapSt.crawl world max_pages queue visited crawled results log).fetch_log := by
  induction queue, visited, crawled, results, log using ScrapSt.crawl.induct world max_pages with
  | case1 visited crawled results log =>
    rw [crawl_step_nil]
    exact fun u hu => Or.inl hu
  | case2 url rest visited crawled results log hle =>
    rw [crawl_step_stop _ _ _ _ _ _ _ _ hle]
    exact fun u hu => Or.inl hu
  | case3 url rest visited crawled results log hle hmem ih =>
    rw [crawl_step_skip _ _ _ _ _ _ _ _ (by omega) hmem]
    exact ih
  | case4 url rest visited crawled results log hle hmem hsp ih =>
    rw [crawl_step_fail _ _ _ _ _ _ _ _ (by omega) hmem
      ((scrape_page_none_iff world _ url).mp hsp)]
    intro u hu
    rcases ih u hu with h | h
    · rcases List.mem_cons.mp h with h2 | h2
      · subst h2
        exact Or.inr (crawl_log_mono world max_pages rest (u :: visited) crawled
          results (log ++ [u]) (List.mem_append_right log (List.mem_singleton_self u)))
      · exact Or.inl h2
    · exact Or.inr h
  | case5 url rest visited crawled results log hle hmem pd hsp ih =>
    rw [crawl_step_fetch _ _ _ _ _ _ _ _ pd (by omega) hmem hsp]
    intro u hu
    rcases ih u hu with h | h
    · rcases List.mem_cons.mp h with h2 | h2
      · subst h2
        exact Or.inr (crawl_log_mono world max_pages _ (u :: visited) (crawled + 1)
          _ (log ++ [u]) (List.mem_append_right log (List.mem_singleton_self u)))
      · exact Or.inl h2
    · exact Or.inr h

/-- Invariant: the counter equals the number of successfully answered fetches
in the log, provided it starts that way. -/
theorem crawl_counter_successes (world : String → Option ScrapSt.FetchedPage)
    (max_pages : Nat) (queue visited : List String) (crawled : Nat)
    (results : List ScrapSt.PageData) (log : List String) :
    crawled = ScrapSt.successful_fetches world log →
      (ScrapSt.crawl world max_pages queue visited crawled results log).pages_crawled =
        ScrapSt.successful_fetches world
          (ScrapSt.crawl world max_pages queue visited crawled results log).fetch_log := by
  induction queue, visited, crawled, results, log using ScrapSt.crawl.induct world max_pages with
  | case1 visited crawled results log =>
    intro h
    rw [crawl_step_nil]
    exact h
  | case2 url rest visited crawled results log hle =>
    intro h
    rw [crawl_step_stop _ _ _ _ _ _ _ _ hle]
    exact h
  | case3 url rest visited crawled results log hle hmem ih =>
    intro h
    rw [crawl_step_skip _ _ _ _ _ _ _ _ (by omega) hmem]
    exact ih h
  | case4 url rest visited crawled results log hle hmem hsp ih =>
    intro h
    rw [crawl_step_fail _ _ _ _ _ _ _ _ (by omega) hmem
      ((scrape_page_none_iff world _ url).mp hsp)]
    refine ih ?_
    unfold ScrapSt.successful_fetches at h ⊢
    rw [List.filter_append, List.length_append, ← h]
    have hw : world url = Option.none := (scrape_page_none_iff world _ url).mp hsp
    simp [hw]
  | case5 url rest visited crawled results log hle hmem pd hsp ih =>
    intro h
    rw [crawl_step_fetch _ _ _ _ _ _ _ _ pd (by omega) hmem hsp]
    refine ih ?_
    unfold ScrapSt.successful_fetches at h ⊢
    rw [List.filter_append, List.length_append, ← h]
    have : (world url).isSome = true := by
      unfold ScrapSt.scrape_page at hsp
      cases hw : world url
      · rw [hw] at hsp
        exact absurd hsp (by simp)
      · simp
    simp [this]

/-- Invariant: the counter never exceeds the budget, provided it starts below
or at it. -/
theorem crawl_counter_le (world : String → Option ScrapSt.FetchedPage)
    (max_pages : Nat) (queue visited : List String) (crawled : Nat)
    (results : List ScrapSt.PageData) (log : List String) :
    crawled ≤ max_pages →
      (ScrapSt.crawl world max_pages queue visited crawled results log).pages_crawled ≤
        max_pages := by
  induction queue, visited, crawled, results, log using ScrapSt.crawl.induct world max_pages with
  | case1 visited crawled results log =>
    intro h
    rw [crawl_step_nil]
    exact h
  | case2 url rest visited crawled results log hle =>
    intro h
    rw [crawl_step_stop _ _ _ _ _ _ _ _ hle]
    exact h
  | case3 url rest visited crawled results log hle hmem ih =>
    intro h
    rw [crawl_step_skip _ _ _ _ _ _ _ _ (by omega) hmem]
    exact ih h
  | case4 url rest visited crawled results log hle hmem hsp ih =>
    intro h
    rw [crawl_step_fail _ _ _ _ _ _ _ _ (by omega) hmem
      ((scrape_page_none_iff world _ url).mp hsp)]
    exact ih h
  | case5 url rest visited crawled results log hle hmem pd hsp ih =>
    intro h
    rw [crawl_step_fetch _ _ _ _ _ _ _ _ pd (by omega) hmem hsp]
    exact ih (by omega)

/-- The visited-dependent scope filter implies its static part. -/
theorem should_crawl_static_of (visited : List String) (url : String)
    (h : ScrapSt.should_crawl visited url = true) :
    ScrapSt.should_crawl_static url = true := by
  unfold ScrapSt.should_crawl_static
  unfold ScrapSt.should_crawl at h ⊢
  split_ifs at h ⊢ <;> simp_all

/-- Invariant: every fetched URL satisfies any predicate that holds of the
initial queue and log and is implied by the static scope filter. -/
theorem crawl_log_scope (world : String → Option ScrapSt.FetchedPage)
    (max_pages : Nat) (P : String → Prop)
    (hP : ∀ x, ScrapSt.should_crawl_static x = true → P x)
    (queue visited : List String) (crawled : Nat)
    (results : List ScrapSt.PageData) (log : List String) :
    (∀ u ∈ queue, P u) → (∀ u ∈ log, P u) →
      ∀ u ∈ (ScrapSt.crawl world max_pages queue visited crawled results log).fetch_log,
        P u := by
  induction queue, visited, crawled, results, log using ScrapSt.crawl.induct world max_pages with
  | case1 visited crawled results log =>
    intro _ hlog
    rw [crawl_step_nil]
    exact hlog
  | case2 url rest visited crawled results log hle =>
    intro _ hlog
    rw [crawl_step_stop _ _ _ _ _ _ _ _ hle]
    exact hlog
  | case3 url rest visited crawled results log hle hmem ih =>
    intro hq hlog
    rw [crawl_step_skip _ _ _ _ _ _ _ _ (by omega) hmem]
    exact ih (fun u hu => hq u (List.mem_cons_of_mem _ hu)) hlog
  | case4 url rest visited crawled results log hle hmem hsp ih =>
    intro hq hlog
    rw [crawl_step_fail _ _ _ _ _ _ _ _ (by omega) hmem
      ((scrape_page_none_iff world _ url).mp hsp)]
    refine ih (fun u hu => hq u (List.mem_cons_of_mem _ hu)) (fun u hu => ?_)
    rcases List.mem_append.mp hu with h | h
    · exact hlog u h
    · simp only [List.mem_singleton] at h
      exact h ▸ hq url (List.mem_cons_self url rest)
  | case5 url rest visited crawled results log hle hmem pd hsp ih =>
    intro hq hlog
    rw [crawl_step_fetch _ _ _ _ _ _ _ _ pd (by omega) hmem hsp]
    refine ih (fun u hu => ?_) (fun u hu => ?_)
    · rcases List.mem_append.mp hu with h | h
      · exact hq u (List.mem_cons_of_mem _ h)
      · have hmemf := List.of_mem_filter h
        simp only [Bool.and_eq_true] at hmemf
        exact hP u (should_crawl_static_of _ _ hmemf.2)
    · rcases List.mem_append.mp hu with h | h
      · exact hlog u h
      · simp only [List.mem_singleton] at h
        exact h ▸ hq url (List.mem_cons_self url rest)

/-! ### Claims about the crawl loop -/

/-- C2: in any run, every dequeued URL is admitted to the visited set before
its fetch is attempted (so the final visited set contains the whole fetch
log), and a fetch is attempted at most once per URL: the fetch log never
repeats an entry, even when a URL occurs several times in the queue or its
fetch failed. -/
theorem c2_visited_before_fetch_at_most_once
    (world : String → Option ScrapSt.FetchedPage) (max_pages : Nat)
    (start_urls : List String) :
    (ScrapSt.crawl_run world max_pages start_urls).fetch_log.Nodup ∧
      ∀ u ∈ (ScrapSt.crawl_run world max_pages start_urls).fetch_log,
        u ∈ (ScrapSt.crawl_run world max_pages start_urls).visited_urls :=
  crawl_log_invariant world max_pages start_urls [] 0 [] []
    (fun _ hu => absurd hu (List.not_mem_nil _)) List.nodup_nil

/-- C4 (counterexample): the claim bounds the number of completed fetch
attempts by `maxPages`, but a failed fetch does not increment the counter:
with `max_pages = 1`, a failing first start URL and a succeeding second one,
the loop performs 2 fetch attempts. -/
theorem c4_counterexample :
    (ScrapSt.crawl_run
        (fun u => if u = "https://investor.vanguard.com/b"
          then some (ScrapSt.FetchedPage.mk "T" "" "" []) else Option.none)
        1 ["https://investor.vanguard.com/a",
           "https://investor.vanguard.com/b"]).fetch_log.length = 2 ∧
      (ScrapSt.crawl_run
        (fun u => if u = "https://investor.vanguard.com/b"
          then some (ScrapSt.FetchedPage.mk "T" "" "" []) else Option.none)
        1 ["https://investor.vanguard.com/a",
           "https://investor.vanguard.com/b"]).pages_crawled = 1 := by
  constructor <;>
    simp [ScrapSt.crawl_run, ScrapSt.crawl, ScrapSt.scrape_page,
      ScrapSt.extract_links, dedupKeep]

/-- C4 (amended): the loop always terminates (it is a total function, by the
lexicographic measure (remaining budget, queue length)); the counter never
exceeds `max_pages`, bounding the SUCCESSFUL fetches by the budget (failed
attempts do not count against it); and the loop stops exactly when the queue
is empty or the counter has reached `max_pages`, returning the state
unchanged in both cases. -/
theorem c4_termination_budget :
    (∀ (world : String → Option ScrapSt.FetchedPage) (max_pages : Nat)
        (start_urls : List String),
      (ScrapSt.crawl_run world max_pages start_urls).pages_crawled ≤ max_pages) ∧
    (∀ (world : String → Option ScrapSt.FetchedPage) (max_pages : Nat)
        (visited : List String) (crawled : Nat) (results : List ScrapSt.PageData)
        (log : List String),
      ScrapSt.crawl world max_pages [] visited crawled results log =
        ⟨visited, crawled, results, log⟩) ∧
    (∀ (world : String → Option ScrapSt.FetchedPage) (max_pages : Nat)
        (url : String) (rest visited : List String) (crawled : Nat)
        (results : List ScrapSt.PageData) (log : List String),
      max_pages ≤ crawled →
      ScrapSt.crawl world max_pages (url :: rest) visited crawled results log =
        ⟨visited, crawled, results, log⟩) :=
  ⟨fun world max_pages start_urls =>
    crawl_counter_le world max_pages start_urls [] 0 [] [] (Nat.zero_le _),
   crawl_step_nil, crawl_step_stop⟩

/-- C4 (witness): the amended statement instantiated at a concrete exhausted
budget. -/
theorem c4_termination_budget_witness :
    ScrapSt.crawl (fun _ => Option.none) 2 ["https://investor.vanguard.com"]
        [] 2 [] [] = ⟨[], 2, [], []⟩ :=
  c4_termination_budget.2.2 _ _ _ _ _ _ _ _ (by decide)

/-- C5 (counterexample): the claim says the counter is incremented on every
completed fetch attempt, success or failure; in the code a failed fetch is
attempted (it appears in the fetch log) but leaves the counter at 0. -/
theorem c5_counterexample :
    (ScrapSt.crawl_run (fun _ => Option.none) 10
        ["https://investor.vanguard.com/legal"]).fetch_log =
      ["https://investor.vanguard.com/legal"] ∧
    (ScrapSt.crawl_run (fun _ => Option.none) 10
        ["https://investor.vanguard.com/legal"]).pages_crawled = 0 := by
  constructor <;> simp [ScrapSt.crawl_run, ScrapSt.crawl, ScrapSt.scrape_page]

/-- C5 (amended): in any run the final counter equals the number of
SUCCESSFUL fetch attempts in the fetch log — it is incremented exactly once
per successful fetch, never on a failed attempt and never at enqueue time. -/
theorem c5_counter_counts_successes :
    ∀ (world : String → Option ScrapSt.FetchedPage) (max_pages : Nat)
      (start_urls : List String),
      (ScrapSt.crawl_run world max_pages start_urls).pages_crawled =
        ScrapSt.successful_fetches world
          (ScrapSt.crawl_run world max_pages start_urls).fetch_log :=
  fun world max_pages start_urls =>
    crawl_counter_successes world max_pages start_urls [] 0 [] [] rfl

/-- C10: start URLs bypass the scope filter — whenever the run ends with the
budget not exhausted, every URL of the start list was fetched (no
`should_crawl` check is applied to dequeued start URLs, whatever their host,
extension or path); and the scope filter governs exactly the discovered
links: every fetched URL is a start URL or passes the static scope filter. -/
theorem c10_start_urls_bypass :
    (∀ (world : String → Option ScrapSt.FetchedPage) (max_pages : Nat)
        (start_urls : List String) (u : String),
      (ScrapSt.crawl_run world max_pages start_urls).pages_crawled < max_pages →
      u ∈ start_urls →
      u ∈ (ScrapSt.crawl_run world max_pages start_urls).fetch_log) ∧
    (∀ (world : String → Option ScrapSt.FetchedPage) (max_pages : Nat)
        (start_urls : List String) (u : String),
      u ∈ (ScrapSt.crawl_run world max_pages start_urls).fetch_log →
      u ∈ start_urls ∨ ScrapSt.should_crawl_static u = true) := by
  constructor
  · intro world max_pages start_urls u hlt hu
    have hv := crawl_queue_processed world max_pages start_urls [] 0 [] [] hlt u hu
    rcases crawl_visited_origin world max_pages start_urls [] 0 [] [] u hv with h | h
    · exact absurd h (List.not_mem_nil u)
    · exact h
  · intro world max_pages start_urls u hu
    exact crawl_log_scope world max_pages
      (fun x => x ∈ start_urls ∨ ScrapSt.should_crawl_static x = true)
      (fun x hx => Or.inr hx) start_urls [] 0 [] []
      (fun x hx => Or.inl hx) (fun x hx => absurd hx (List.not_mem_nil x)) u hu

/-- C10 (witness): a start URL on a non-allow-listed host (for which
`should_crawl` is false) is nevertheless fetched. -/
theorem c10_start_urls_bypass_witness :
    "https://other.com/c" ∈
      (ScrapSt.crawl_run (fun _ => Option.none) 1 ["https://other.com/c"]).fetch_log ∧
    ScrapSt.should_crawl_static "https://other.com/c" = false ∧
    ("https://other.com/c" ∈ ["https://other.com/c"] ∨
      ScrapSt.should_crawl_static "https://other.com/c" = true) := by
  have h1 : (ScrapSt.crawl_run (fun _ => Option.none) 1
      ["https://other.com/c"]).pages_crawled < 1 := by
    simp [ScrapSt.crawl_run, ScrapSt.crawl, ScrapSt.scrape_page]
  have h2 := c10_start_urls_bypass.1 (fun _ => Option.none) 1
    ["https://other.com/c"] "https://other.com/c" h1 (by decide)
  exact ⟨h2, by decide, c10_start_urls_bypass.2 _ _ _ _ h2⟩

/-! ### Normalization lemmas -/

/-- Fragment stripping leaves no fragment marker behind. -/
theorem stripFragment_no_hash (url : String) :
    ∀ c ∈ (ScrapSt.stripFragment url).toList, c ≠ '#' := by
  intro c hc
  have := List.mem_takeWhile_imp hc
  simpa using this

/-- A list without fragment markers is fixed by the fragment `takeWhile`. -/
theorem takeWhile_no_hash_eq (l : List Char) (h : ∀ c ∈ l, c ≠ '#') :
    l.takeWhile (fun c => decide (c ≠ '#')) = l := by
  induction l with
  | nil => rfl
  | cons c t ih =>
    have hc : c ≠ '#' := h c (List.mem_cons_self c t)
    rw [List.takeWhile_cons, if_pos (decide_eq_true hc)]
    rw [ih fun x hx => h x (List.mem_cons_of_mem c hx)]

/-- Fragment stripping fixes a string without fragment markers. -/
theorem stripFragment_eq_self (url : String)
    (h : ∀ c ∈ url.toList, c ≠ '#') : ScrapSt.stripFragment url = url := by
  unfold ScrapSt.stripFragment
  rw [takeWhile_no_hash_eq url.toList h]
  rfl

/-- A string starting with `"http"` is nonempty. -/
theorem startsStr_http_ne_empty (s : String) (h : startsStr s "http" = true) :
    s ≠ "" := by
  intro hc
  rw [hc] at h
  exact absurd h (by decide)

/-- The output of `normalize_url` on nonempty input starts with `"http"`, is
nonempty, and contains no fragment marker. -/
theorem normalize_url_shape (url : String) (h0 : url ≠ "") :
    startsStr (ScrapSt.normalize_url url) "http" = true ∧
      ScrapSt.normalize_url url ≠ "" ∧
      ∀ c ∈ (ScrapSt.normalize_url url).toList, c ≠ '#' := by
  have hbase : ∀ c ∈ ("https://investor.vanguard.com").toList, c ≠ '#' := by decide
  have hsch : ∀ c ∈ ("https:").toList, c ≠ '#' := by decide
  simp only [ScrapSt.normalize_url, if_neg h0]
  split_ifs with h1 h2 h3
  · exact ⟨h1, startsStr_http_ne_empty _ h1, stripFragment_no_hash url⟩
  · refine ⟨rfl, startsStr_http_ne_empty _ rfl, ?_⟩
    intro c hc
    rw [show ("https:" ++ ScrapSt.stripFragment url).toList =
      ("https:").toList ++ (ScrapSt.stripFragment url).toList from rfl] at hc
    rcases List.mem_append.mp hc with h | h
    · exact hsch c h
    · exact stripFragment_no_hash url c h
  · refine ⟨rfl, startsStr_http_ne_empty _ rfl, ?_⟩
    intro c hc
    rw [show (ScrapSt.base_url ++ ScrapSt.stripFragment url).toList =
      ("https://investor.vanguard.com").toList ++
        (ScrapSt.stripFragment url).toList from rfl] at hc
    rcases List.mem_append.mp hc with h | h
    · exact hbase c h
    · exact stripFragment_no_hash url c h
  · refine ⟨rfl, startsStr_http_ne_empty _ rfl, ?_⟩
    intro c hc
    rw [show (ScrapSt.base_url ++ "/" ++ ScrapSt.stripFragment url).toList =
      ("https://investor.vanguard.com/").toList ++
        (ScrapSt.stripFragment url).toList from rfl] at hc
    rcases List.mem_append.mp hc with h | h
    · exact (by decide : ∀ c ∈ ("https://investor.vanguard.com/").toList, c ≠ '#') c h
    · exact stripFragment_no_hash url c h

/-- `normalize_url` fixes every nonempty fragment-free string that starts
with `"http"`. -/
theorem normalize_url_fixed (t : String) (h1 : startsStr t "http" = true)
    (h2 : ∀ c ∈ t.toList, c ≠ '#') (h3 : t ≠ "") :
    ScrapSt.normalize_url t = t := by
  have hs : ScrapSt.stripFragment t = t := stripFragment_eq_self t h2
  simp only [ScrapSt.normalize_url, if_neg h3, hs, h1, if_true]

/-- Elements survive `dedupKeep` only from the underlying list. -/
theorem dedupKeep_subset (l : List String) :
    ∀ (seen : List String) (x : String), x ∈ dedupKeep seen l → x ∈ l := by
  induction l with
  | nil =>
    intro seen x hx
    exact absurd hx (List.not_mem_nil x)
  | cons a t ih =>
    intro seen x hx
    unfold dedupKeep at hx
    split_ifs at hx with h
    · exact List.mem_cons_of_mem a (ih seen x hx)
    · rcases List.mem_cons.mp hx with h2 | h2
      · exact h2 ▸ List.mem_cons_self a t
      · exact List.mem_cons_of_mem a (ih (a :: seen) x h2)

/-- A URL passing `should_crawl` is not in the visited set. -/
theorem should_crawl_not_visited (visited : List String) (url : String)
    (h : ScrapSt.should_crawl visited url = true) : url ∉ visited := by
  intro hmem
  unfold ScrapSt.should_crawl at h
  rw [if_pos (Or.inr hmem)] at h
  exact absurd h (by decide)

/-- C7: normalization is idempotent — renormalizing a normalized link is a
no-op, hence the scope filter agrees on `normalize(link)` and
`normalize(normalize(link))` — and every link emitted by `extract_links`
(already filtered once) still passes the defensive re-check applied at
enqueue time (`link not in visited and should_crawl(link)`): reapplying the
filter to an already-filtered, not-yet-visited URL does not reject it. -/
theorem c7_idempotent_normalization :
    (∀ url, ScrapSt.normalize_url (ScrapSt.normalize_url url) =
      ScrapSt.normalize_url url) ∧
    (∀ (visited : List String) (url : String),
      ScrapSt.should_crawl visited (ScrapSt.normalize_url url) =
        ScrapSt.should_crawl visited
          (ScrapSt.normalize_url (ScrapSt.normalize_url url))) ∧
    (∀ (visited hrefs : List String) (l : String),
      l ∈ ScrapSt.extract_links visited hrefs →
      l ∉ visited ∧ ScrapSt.should_crawl visited l = true) := by
  have hidem : ∀ url, ScrapSt.normalize_url (ScrapSt.normalize_url url) =
      ScrapSt.normalize_url url := by
    intro url
    by_cases h0 : url = ""
    · subst h0
      rfl
    · obtain ⟨h1, h2, h3⟩ := normalize_url_shape url h0
      exact normalize_url_fixed _ h1 h3 h2
  refine ⟨hidem, fun visited url => by rw [hidem], fun visited hrefs l hl => ?_⟩
  have hmem := dedupKeep_subset _ [] l hl
  have hcond := List.of_mem_filter hmem
  simp only [Bool.and_eq_true] at hcond
  exact ⟨should_crawl_not_visited visited l hcond.2, hcond.2⟩

/-- C7 (witness): the third part of the statement applied to a concrete
extracted link. -/
theorem c7_idempotent_normalization_witness :
    "https://investor.vanguard.com/privacy" ∉ ([] : List String) ∧
      ScrapSt.should_crawl [] "https://investor.vanguard.com/privacy" = true :=
  c7_idempotent_normalization.2.2 [] ["/privacy"]
    "https://investor.vanguard.com/privacy" (by decide)

end ComplianceScrapers
